import Mathlib

/-!
Verification development for the NIKE knowledge-graph-embedding training
harness (codes/tmp/run.py).  The Python program is shallowly embedded:
pure helpers become Lean functions, the mutable training loop becomes
explicit state passing, python dict objects shared between dataset views
become a heap of tables addressed by index, and fallible code returns
Except/Option.  Floating-point learning rates are modelled over the
rationals.  run.py is the only source file of the repository; the
companion modules model.py and dataloader.py are not part of the source
tree, so the few facts needed about them are modelled from the
specification and marked as such in their doc comments.
-/

set_option autoImplicit false

namespace NIKE

/-- A (head, relation, tail) triple of integer ids, as produced by read_triple. -/
abbrev Triple := Nat × Nat × Nat

/-- A text line of an input file, represented by its list of tab-separated
fields, i.e. the result of the python expression line.strip().split(TAB). -/
abbrev Line := List String

/-- Auxiliary digit fold for int_of_string?. -/
def natDigitsAux : List Char → Nat → Option Nat
  | [], acc => some acc
  | c :: cs, acc =>
    if c.isDigit then natDigitsAux cs (acc * 10 + (c.toNat - 48)) else none

/-- Models the python int() conversion applied to id fields of dictionary
files (nonnegative decimal numerals; anything else raises, i.e. none). -/
def int_of_string? (s : String) : Option Nat :=
  match s.data with
  | [] => none
  | _ :: _ => natDigitsAux s.data 0

/-- Maps a triple line through the two vocabulary dicts, as in the body of
the loop of read_triple (run.py lines 162-165): unpacking h, r, t raises
ValueError when the field count is not 3, and indexing an absent name
raises KeyError. -/
def parse_triple_line (e2i r2i : String → Option Nat) (fields : Line) :
    Except String Triple :=
  match fields with
  | [h, r, t] =>
    match e2i h, r2i r, e2i t with
    | some hi, some ri, some ti => .ok (hi, ri, ti)
    | _, _, _ => .error "KeyError"
  | _ => .error "ValueError: wrong field count"

/-- read_triple (run.py lines 157-166): reads triples in file order and maps
them into ids; the first bad line aborts the whole read, so no partial
list is ever returned. -/
def read_triple (e2i r2i : String → Option Nat) : List Line → Except String (List Triple)
  | [] => .ok []
  | l :: rest =>
    match parse_triple_line e2i r2i l with
    | .ok tr =>
      match read_triple e2i r2i rest with
      | .ok ts => .ok (tr :: ts)
      | .error msg => .error msg
    | .error msg => .error msg

/-- A loaded vocabulary: the python dict name -> id, modelled as an
association list in insertion order with unique keys. -/
abbrev Vocab := List (String × Nat)

/-- Python dict assignment d[k] = v: overwrite in place if the key exists,
otherwise append (insertion order preserved, keys stay unique). -/
def insertVocab : Vocab → String → Nat → Vocab
  | [], k, v => [(k, v)]
  | (k0, v0) :: rest, k, v =>
    if k0 = k then (k, v) :: rest else (k0, v0) :: insertVocab rest k v

/-- Python dict lookup d[name] (none models KeyError). -/
def lookupName : Vocab → String → Option Nat
  | [], _ => none
  | (k, v) :: rest, name => if k = name then some v else lookupName rest name

/-- Decoding an id back to a name: the first entry carrying that id. -/
def id2name : Vocab → Nat → Option String
  | [], _ => none
  | (k, v) :: rest, i => if v = i then some k else id2name rest i

/-- The dictionary-loading loops of main (run.py lines 224-234): each line
must split into exactly 2 fields, the id field goes through int(), and
entries are inserted into the dict in file order. -/
def load_dict_lines : List Line → Vocab → Except String Vocab
  | [], d => .ok d
  | fields :: rest, d =>
    match fields with
    | [eid, name] =>
      match int_of_string? eid with
      | some n => load_dict_lines rest (insertVocab d name n)
      | none => .error "ValueError: invalid literal for int"
    | _ => .error "ValueError: wrong field count"

/-- Loads a dictionary file starting from the empty dict. -/
def load_dict (ls : List Line) : Except String Vocab := load_dict_lines ls []

/-- The bijectivity property claimed of loaded vocabularies: every id in
the dense range below the dict size is carried by exactly one entry. -/
def dictBij (d : Vocab) : Prop :=
  ∀ i < d.length, (d.filter (fun p => p.2 = i)).length = 1

instance (d : Vocab) : Decidable (dictBij d) := by
  unfold dictBij; infer_instance

/-- A subsampling-weight table: the python dict Triple -> FloatTensor,
weights modelled as rationals, association list with unique keys. -/
abbrev WTable := List (Triple × ℚ)

/-- Python dict assignment w[t] = v on a weight table. -/
def setW : WTable → Triple → ℚ → WTable
  | [], t, v => [(t, v)]
  | (k, w) :: rest, t, v =>
    if k = t then (t, v) :: rest else (k, w) :: setW rest t v

/-- Python dict lookup w[t] on a weight table. -/
def getW : WTable → Triple → Option ℚ
  | [], _ => none
  | (k, w) :: rest, t => if k = t then some w else getW rest t

/-- Heap of weight-table objects; python object identity is modelled by the
index into this heap, so two dataset views alias exactly when they hold
the same index. -/
structure DataHeap where
  tables : List WTable
  deriving DecidableEq

/-- One TrainDataset view: the list of positive triples it serves and the
heap reference of its subsampling_weights dict. -/
structure TrainDatasetView where
  triples : List Triple
  wref : Nat
  deriving DecidableEq

/-- Modelled from the spec: the TrainDataset constructor lives in
dataloader.py, which is not under src/; per the spec it stores the given
list of positive triples and owns a per-triple subsampling-weight table
(frequency-based or fixed), here passed in as the fresh table contents. -/
def newTrainDataset (h : DataHeap) (triples : List Triple) (fresh : WTable) :
    TrainDatasetView × DataHeap :=
  ({ triples := triples, wref := h.tables.length }, { tables := h.tables ++ [fresh] })

/-- Reading one weight through a dataset view. -/
def readW (h : DataHeap) (d : TrainDatasetView) (t : Triple) : Option ℚ :=
  getW (h.tables.getD d.wref []) t

/-- Mutating one weight through a dataset view. -/
def writeW (h : DataHeap) (d : TrainDatasetView) (t : Triple) (v : ℚ) : DataHeap :=
  { tables := h.tables.set d.wref (setW (h.tables.getD d.wref []) t v) }

/-- The dataset views created by main.  The clf and gen views exist only
when the method is clf or unset (run.py line 306). -/
structure DatasetSetup where
  heap : DataHeap
  train_head : TrainDatasetView
  train_tail : TrainDatasetView
  clf_head : Option TrainDatasetView
  clf_tail : Option TrainDatasetView
  gen_head : Option TrainDatasetView
  gen_tail : Option TrainDatasetView
  deriving DecidableEq

/-- Dataset construction and weight-table aliasing in main (run.py lines
282-286 and 306-341): two train views are built, every triple of the
training set (already including injected fakes) has its weight set to 1.0
through the head view, the tail view is re-pointed at the head table, and
the clf and gen views are likewise re-pointed at the head table.
clf_triples stands for the random 10 percent sample of line 308; the
fresh-table contents of each constructor call are irrelevant parameters. -/
def mainDatasetSetup (method : Option String) (train_triples clf_triples : List Triple)
    (fresh : List Triple → WTable) : DatasetSetup :=
  let h0 : DataHeap := { tables := [] }
  let p1 := newTrainDataset h0 train_triples (fresh train_triples)
  let dh := p1.1
  let p2 := newTrainDataset p1.2 train_triples (fresh train_triples)
  let h2 := p2.2
  let h3 := train_triples.foldl (fun hh tr => writeW hh dh tr 1) h2
  let dt := { p2.1 with wref := dh.wref }
  if method = some "clf" ∨ method = none then
    let p4 := newTrainDataset h3 clf_triples (fresh clf_triples)
    let p5 := newTrainDataset p4.2 clf_triples (fresh clf_triples)
    let p6 := newTrainDataset p5.2 clf_triples (fresh clf_triples)
    let p7 := newTrainDataset p6.2 clf_triples (fresh clf_triples)
    { heap := p7.2, train_head := dh, train_tail := dt,
      clf_head := some { p4.1 with wref := dh.wref },
      clf_tail := some { p5.1 with wref := dh.wref },
      gen_head := some { p6.1 with wref := dh.wref },
      gen_tail := some { p7.1 with wref := dh.wref } }
  else
    { heap := h3, train_head := dh, train_tail := dt,
      clf_head := none, clf_tail := none, gen_head := none, gen_tail := none }

/-- The configuration surface of run.py relevant to the verified claims
(parse_args defaults, run.py lines 51-105); remaining options do not
influence the modelled behaviour. -/
structure Args where
  num : Nat
  do_train : Bool
  do_valid : Bool
  do_test : Bool
  method : Option String
  fake : Option String
  data_path : Option String
  init_checkpoint : Option String
  save_path : Option String
  no_save : Bool
  max_steps : Nat
  warm_up_steps : Option Nat
  save_checkpoint_steps : Nat
  learning_rate : ℚ
  deriving DecidableEq

/-- Contents of the config.json found in a checkpoint directory, restricted
to the fields override_config copies into the modelled Args. -/
structure ConfigJson where
  data_path : Option String
  fake : Option String
  method : Option String
  save_path : Option String
  deriving DecidableEq

/-- override_config (run.py lines 108-127): data_path is only filled in
when absent; method and save_path are only overridden outside train mode. -/
def override_config (a : Args) (cfg : ConfigJson) : Args :=
  let a1 := if a.data_path = none then { a with data_path := cfg.data_path } else a
  let a2 := { a1 with fake := cfg.fake }
  if a2.do_train then a2
  else { a2 with method := cfg.method, save_path := cfg.save_path }

/-- File-system actions of the start of main, recorded in program order. -/
inductive PrologEvent where
  | readFile (path : String)
  | mkdir (path : String)
  deriving DecidableEq

/-- The configuration checks opening main (run.py lines 206-219), together
with the file-system actions they are interleaved with: the mode check
comes first, then (when a checkpoint is given) override_config reads the
checkpoint directory config.json, then the data-path check, then the
save-path check; the save directory is created only after all checks. -/
def mainPrologue (a : Args) (cfg : ConfigJson) (saveDirExists : Bool) :
    List PrologEvent × Except String Args :=
  if a.do_train = false ∧ a.do_valid = false ∧ a.do_test = false then
    ([], .error "one of train/val/test mode must be choosed.")
  else
    match a.init_checkpoint with
    | some ck =>
      let evs := [PrologEvent.readFile (ck ++ "/config.json")]
      let a2 := override_config a cfg
      if a2.do_train = true ∧ a2.save_path = none then
        (evs, .error "Where do you want to save your trained model?")
      else
        match a2.save_path with
        | some sp =>
          if saveDirExists then (evs, .ok a2)
          else (evs ++ [PrologEvent.mkdir sp], .ok a2)
        | none => (evs, .ok a2)
    | none =>
      if a.data_path = none then
        ([], .error "one of init_checkpoint/data_path must be choosed.")
      else if a.do_train = true ∧ a.save_path = none then
        ([], .error "Where do you want to save your trained model?")
      else
        match a.save_path with
        | some sp =>
          if saveDirExists then ([], .ok a)
          else ([PrologEvent.mkdir sp], .ok a)
        | none => ([], .ok a)

/-- Lower-casing of an ASCII character, as python str.lower() acts on the
replies relevant here. -/
def lowerChar (c : Char) : Char :=
  if c.isUpper then Char.ofNat (c.toNat + 32) else c

/-- Lower-casing of a reply string (python command.lower()). -/
def lowerStr (s : String) : String := String.mk (s.data.map lowerChar)

/-- What set_logger did to the log file when it returned (or did not). -/
inductive LoggerOutcome where
  | exited
  | overwrote (path : String)
  | created (path : String)
  deriving DecidableEq

/-- The log-file destination chosen by set_logger (run.py lines 174-177):
save_path if present, otherwise the checkpoint directory; train.log in
train mode and test.log otherwise. -/
def log_file_path (a : Args) : String :=
  (match a.save_path with
   | some p => p
   | none => a.init_checkpoint.getD "") ++
  (if a.do_train then "/train.log" else "/test.log")

/-- set_logger (run.py lines 169-195): when the log file already exists the
user is prompted; the process exits cleanly exactly when the lower-cased
reply is the single letter n, and otherwise logging.basicConfig opens the
log file in write mode, truncating it. -/
def set_logger (a : Args) (logFileExists : Bool) (reply : String) : LoggerOutcome :=
  if logFileExists then
    if lowerStr reply = "n" then .exited
    else .overwrote (log_file_path a)
  else .created (log_file_path a)

/-- A persisted checkpoint bundle, as assembled by the save sites of main
(run.py lines 504-512 and 525-532) and written by save_model: step,
learning rate and warm-up counters, the optional confidence table, and
the model parameters (modelled as a list of rationals; optimizer,
classifier and generator states play no role in the claims). -/
structure Checkpoint where
  step : Nat
  current_learning_rate : ℚ
  warm_up_steps : Nat
  confidence : Option WTable
  model_state_dict : List ℚ
  deriving DecidableEq

/-- One scheduling event of the training coordination: a classifier
warm-up epoch, a GAN sub-loop epoch, a classifier-refresh epoch, or the
main optimisation step of a given loop index. -/
inductive Phase where
  | warmupEpoch
  | ganEpoch
  | clfRefreshEpoch
  | mainStep (step : Nat)
  deriving DecidableEq

/-- The mutable state threaded through the training loop of main: the
soft/hard reweighting flag, the current learning rate, the rate the
optimizer was last built with, the decay threshold warm_up_steps, the
shared subsampling-weight table, the model parameters, the checkpoints
written so far, and the scheduling trace. -/
structure LoopState where
  soft : Bool
  current_learning_rate : ℚ
  optimizer_lr : ℚ
  warm_up_steps : Nat
  weights : WTable
  model_params : List ℚ
  saved : List Checkpoint
  phases : List Phase
  deriving DecidableEq

/-- The decay threshold chosen before the loop (run.py lines 395-398):
the configured warm-up step count, defaulting to max_steps. -/
def initWarmUpSteps (a : Args) : Nat :=
  match a.warm_up_steps with
  | some w => w
  | none => a.max_steps

/-- Checkpoint restoration (run.py lines 400-413): load_state_dict puts the
saved parameters into the model, init_step is set to 0, and in train mode
warm_up_steps is taken from the checkpoint.  Returns the model parameters,
init_step and warm_up_steps after the restore. -/
def restoreFromCheckpoint (a : Args) (ck : Checkpoint) (warmUp0 : Nat) :
    List ℚ × Nat × Nat :=
  (ck.model_state_dict, 0, if a.do_train then ck.warm_up_steps else warmUp0)

/-- State at the top of the training section (run.py lines 390-449):
learning rate from the configuration, decay threshold from the
configuration or (when a checkpoint directory is given) the checkpoint,
model parameters freshly initialised or loaded, soft flag false; ck is
the bundle torch.load would produce from the checkpoint directory,
consulted only when init_checkpoint is given; w0 is the shared weight
table produced by the dataset setup (all training triples at 1.0).  The
saved step counter is never consulted here: init_step is 0 in both
branches. -/
def initLoopState (a : Args) (ck : Checkpoint) (params0 : List ℚ)
    (w0 : WTable) : LoopState :=
  if a.init_checkpoint.isSome then
    { soft := false,
      current_learning_rate := a.learning_rate,
      optimizer_lr := a.learning_rate,
      warm_up_steps := (restoreFromCheckpoint a ck (initWarmUpSteps a)).2.2,
      weights := w0,
      model_params := (restoreFromCheckpoint a ck (initWarmUpSteps a)).1,
      saved := [], phases := [] }
  else
    { soft := false,
      current_learning_rate := a.learning_rate,
      optimizer_lr := a.learning_rate,
      warm_up_steps := initWarmUpSteps a,
      weights := w0,
      model_params := params0,
      saved := [], phases := [] }

/-- The init_step value the loop starts counting from (run.py lines 404 and
413): 0 in both the checkpoint and the fresh branch. -/
def initStepOf (a : Args) (ck : Checkpoint) : Nat :=
  if a.init_checkpoint.isSome then (restoreFromCheckpoint a ck (initWarmUpSteps a)).2.1
  else 0

/-- The soft flag chosen at a triggering step (run.py lines 452-457):
pinned to soft for repeat count 1, pinned to hard for the sentinel 1000,
otherwise flipped. -/
def nextSoft (a : Args) (soft : Bool) : Bool :=
  if a.num = 1 then true
  else if a.num = 1000 then false
  else !soft

/-- The save bundle assembled at the save sites (run.py lines 504-511 and
525-531): the confidence entry is present exactly when a method is
selected, holding the shared subsampling-weight table. -/
def mkBundle (a : Args) (step : Nat) (s : LoopState) : Checkpoint :=
  { step := step,
    current_learning_rate := s.current_learning_rate,
    warm_up_steps := s.warm_up_steps,
    confidence := if a.method.isSome then some s.weights else none,
    model_state_dict := s.model_params }

/-- save_model (run.py lines 130-149): a no-op under no_save, otherwise the
bundle is written to the checkpoint file. -/
def save_model (a : Args) (ck : Checkpoint) (s : LoopState) : LoopState :=
  if a.no_save then s else { s with saved := s.saved ++ [ck] }

/-- One checkpoint write: assemble the bundle from the current state and
hand it to save_model. -/
def saveStep (a : Args) (step : Nat) (s : LoopState) : LoopState :=
  save_model a (mkBundle a step s) s

/-- The clf detour at the top of a loop iteration (run.py lines 451-480):
when the method is clf and the step index is a multiple of 10001, the
soft flag is updated, find_topK_triples refreshes the shared weight table
(clfUpd stands for its table update; it lives in model.py, outside the
source tree, and the claims hold for every choice of it), and 200 GAN
epochs followed by 200 classifier-refresh epochs run. -/
def clfDetour (a : Args) (clfUpd : Bool → WTable → WTable) (step : Nat)
    (s : LoopState) : LoopState :=
  if a.method = some "clf" ∧ step % 10001 = 0 then
    { s with soft := nextSoft a s.soft,
             weights := clfUpd (nextSoft a s.soft) s.weights,
             phases := s.phases ++ List.replicate 200 Phase.ganEpoch
                       ++ List.replicate 200 Phase.clfRefreshEpoch }
  else s

/-- The main optimisation step of one iteration (run.py lines 488-493);
mUpd stands for the parameter update of train_step or train_GAN_step,
which live in model.py, outside the source tree. -/
def mainStepUpd (mUpd : List ℚ → List ℚ) (step : Nat) (s : LoopState) : LoopState :=
  { s with model_params := mUpd s.model_params,
           phases := s.phases ++ [Phase.mainStep step] }

/-- The learning-rate decay of one iteration (run.py lines 495-502): once
the step reaches warm_up_steps, the rate is divided by 10, the optimizer
is rebuilt at the new rate, and the threshold is tripled. -/
def decayUpd (step : Nat) (s : LoopState) : LoopState :=
  if s.warm_up_steps ≤ step then
    { s with current_learning_rate := s.current_learning_rate / 10,
             optimizer_lr := s.current_learning_rate / 10,
             warm_up_steps := s.warm_up_steps * 3 }
  else s

/-- The periodic checkpoint write of one iteration (run.py lines 504-512). -/
def maybeSave (a : Args) (step : Nat) (s : LoopState) : LoopState :=
  if step % a.save_checkpoint_steps = 0 then saveStep a step s else s

/-- One iteration of the training loop (run.py lines 450-523), for loop
index step: the clf detour, then the main optimisation step, then the
learning-rate decay, then the periodic checkpoint write. -/
def loopBody (a : Args) (clfUpd : Bool → WTable → WTable) (mUpd : List ℚ → List ℚ)
    (step : Nat) (s : LoopState) : LoopState :=
  maybeSave a step (decayUpd step (mainStepUpd mUpd step (clfDetour a clfUpd step s)))

/-- State after the first k loop iterations (loop indices 0 to k-1). -/
def stateAfter (a : Args) (clfUpd : Bool → WTable → WTable)
    (mUpd : List ℚ → List ℚ) (s0 : LoopState) (k : Nat) : LoopState :=
  (List.range k).foldl (fun s j => loopBody a clfUpd mUpd j s) s0

/-- The classifier warm-up block before the loop (run.py lines 429-441):
1200 classifier training epochs, run only in train mode with method clf
and a checkpoint to resume from. -/
def warmupPhase (a : Args) (s : LoopState) : LoopState :=
  if a.method = some "clf" ∧ a.init_checkpoint.isSome then
    { s with phases := s.phases ++ List.replicate 1200 Phase.warmupEpoch }
  else s

/-- The whole train-mode section of main (run.py lines 429-532): warm-up
block, the loop over steps 0 to max_steps - 1, and the final checkpoint
write, whose step field is the last value of the loop variable
(max_steps - 1, or 0 for an empty loop, which Nat subtraction gives
directly).  Outside train mode none of this runs. -/
def trainRun (a : Args) (clfUpd : Bool → WTable → WTable) (mUpd : List ℚ → List ℚ)
    (ck : Checkpoint) (params0 : List ℚ) (w0 : WTable) : LoopState :=
  if a.do_train then
    saveStep a (a.max_steps - 1)
      (stateAfter a clfUpd mUpd (warmupPhase a (initLoopState a ck params0 w0)) a.max_steps)
  else initLoopState a ck params0 w0

/-- The scheduling trace the spec state machine prescribes for one main
step: a detour of 200 GAN epochs and 200 classifier-refresh epochs before
the main step at every multiple of the interval in clf mode, and the bare
main step otherwise.  Written from the spec for comparison with the trace
the embedded loop produces. -/
def specStepPhases (a : Args) (step : Nat) : List Phase :=
  (if a.method = some "clf" ∧ step % 10001 = 0 then
     List.replicate 200 Phase.ganEpoch ++ List.replicate 200 Phase.clfRefreshEpoch
   else []) ++ [Phase.mainStep step]

/-- The warm-up prefix the spec state machine prescribes: a fixed number of
classifier warm-up epochs exactly when the method is clf and the run
resumes from a checkpoint.  Written from the spec for comparison with the
trace the embedded loop produces. -/
def specWarmupPhases (a : Args) : List Phase :=
  if a.method = some "clf" ∧ a.init_checkpoint.isSome then
    List.replicate 1200 Phase.warmupEpoch
  else []

/-- Trivial find_topK_triples dynamics used to instantiate witnesses. -/
def idClfUpd : Bool → WTable → WTable := fun _ w => w

/-- Trivial main-step parameter dynamics used to instantiate witnesses. -/
def idParamUpd : List ℚ → List ℚ := fun p => p

/-- A placeholder checkpoint bundle for runs that start fresh. -/
def ck0 : Checkpoint :=
  { step := 0, current_learning_rate := 1, warm_up_steps := 0,
    confidence := none, model_state_dict := [] }

/-- A concrete fresh training configuration: three steps, a checkpoint
written at every step, no method selected. -/
def argsA : Args :=
  { num := 1, do_train := true, do_valid := false, do_test := false,
    method := none, fake := none, data_path := some "data",
    init_checkpoint := none, save_path := some "save", no_save := false,
    max_steps := 3, warm_up_steps := none, save_checkpoint_steps := 1,
    learning_rate := 1 }

/-- The restart of the argsA run, pointed at its saved checkpoint. -/
def argsA2 : Args := { argsA with init_checkpoint := some "save" }

/-- The run of the argsA configuration. -/
def runA : LoopState := trainRun argsA idClfUpd idParamUpd ck0 [0] []

/-- A concrete clf-mode training configuration resuming from a checkpoint:
two steps, repeat count 2, a checkpoint written at every step. -/
def argsClf : Args :=
  { num := 2, do_train := true, do_valid := false, do_test := false,
    method := some "clf", fake := some "100", data_path := some "data",
    init_checkpoint := some "save", save_path := some "save", no_save := false,
    max_steps := 2, warm_up_steps := none, save_checkpoint_steps := 1,
    learning_rate := 1 }

/-- A configuration that requests training from a checkpoint directory but
names no save destination. -/
def argsC5 : Args :=
  { num := 1, do_train := true, do_valid := false, do_test := false,
    method := none, fake := none, data_path := some "data",
    init_checkpoint := some "ckpt", save_path := none, no_save := false,
    max_steps := 10, warm_up_steps := none, save_checkpoint_steps := 1,
    learning_rate := 1 }

/-- A config.json content used to exercise the prologue. -/
def cfg0 : ConfigJson :=
  { data_path := some "data", fake := none, method := none,
    save_path := some "cfgsave" }

/-- A train-mode configuration with a save destination, for the logger. -/
def argsC6 : Args :=
  { num := 1, do_train := true, do_valid := false, do_test := false,
    method := none, fake := none, data_path := some "data",
    init_checkpoint := none, save_path := some "save", no_save := false,
    max_steps := 10, warm_up_steps := none, save_checkpoint_steps := 1,
    learning_rate := 1 }

/-- A concrete two-entity vocabulary. -/
def vocabAB : Vocab := [("a", 0), ("b", 1)]

/-- Entity lookup over the concrete vocabulary. -/
def e2iAB : String → Option Nat := fun s => lookupName vocabAB s

/-- Relation lookup over a one-relation vocabulary. -/
def r2iR : String → Option Nat := fun s => lookupName [("r", 0)] s

/-- A well-formed two-line triple file over the concrete vocabularies. -/
def goodLines : List Line := [["a", "r", "b"], ["b", "r", "a"]]

/-- A triple file whose single line has only two fields. -/
def badLines : List Line := [["a", "r"]]

/-- A dictionary file whose single line has three fields. -/
def badDictLines : List Line := [["0", "a", "x"]]

/-- The per-line id images of goodLines. -/
def fGood : Line → Triple :=
  fun l => if l = ["a", "r", "b"] then (0, 0, 1) else (1, 0, 0)

/-- A well-formed dictionary file covering ids 0 and 1. -/
def dictLinesW : List Line := [["0", "a"], ["1", "b"]]

/-- The vocabulary loaded from dictLinesW. -/
def vocabW : Vocab := [("a", 0), ("b", 1)]

/-- A configuration with none of the three mode flags set. -/
def argsNoMode : Args :=
  { argsC6 with do_train := false, do_valid := false, do_test := false }

/-- A concrete loop state used to exercise the save and restore path. -/
def sW : LoopState :=
  { soft := false, current_learning_rate := 1, optimizer_lr := 1,
    warm_up_steps := 7, weights := [], model_params := [5], saved := [],
    phases := [] }

theorem override_config_do_train (a : Args) (cfg : ConfigJson) :
    (override_config a cfg).do_train = a.do_train := by
  by_cases h : a.data_path = none <;>
    by_cases h2 : a.do_train = true <;>
      simp [override_config, h, h2]

theorem override_config_save_path_of_train (a : Args) (cfg : ConfigJson)
    (ht : a.do_train = true) : (override_config a cfg).save_path = a.save_path := by
  by_cases h : a.data_path = none <;> simp [override_config, h, ht]

/-- Claim C5 (amended): the mode-flag check, the missing-data-path check
and, when no checkpoint directory is given, the missing-save-path check
each abort main before any file is read or written; when a checkpoint
directory is given, the missing-save-path check still aborts before any
write, but only after the checkpoint config.json has been read. -/
theorem config_errors_before_io (a : Args) (cfg : ConfigJson) (e : Bool) :
    (a.do_train = false ∧ a.do_valid = false ∧ a.do_test = false →
      mainPrologue a cfg e = ([], .error "one of train/val/test mode must be choosed."))
  ∧ (¬(a.do_train = false ∧ a.do_valid = false ∧ a.do_test = false) →
      a.init_checkpoint = none → a.data_path = none →
      mainPrologue a cfg e = ([], .error "one of init_checkpoint/data_path must be choosed."))
  ∧ (a.init_checkpoint = none → a.data_path ≠ none → a.do_train = true → a.save_path = none →
      mainPrologue a cfg e = ([], .error "Where do you want to save your trained model?"))
  ∧ (∀ ckdir, a.init_checkpoint = some ckdir → a.do_train = true → a.save_path = none →
      mainPrologue a cfg e
        = ([PrologEvent.readFile (ckdir ++ "/config.json")],
           .error "Where do you want to save your trained model?")) := by
  refine ⟨?_, ?_, ?_, ?_⟩
  · intro h
    simp [mainPrologue, h.1, h.2.1, h.2.2]
  · intro h3 h1 h2
    simp [mainPrologue, h1, h2, h3]
  · intro h1 h2 ht hsp
    have hmode : ¬(a.do_train = false ∧ a.do_valid = false ∧ a.do_test = false) := by
      simp [ht]
    simp [mainPrologue, h1, h2, ht, hsp, hmode]
  · intro ckdir hck ht hsp
    have hmode : ¬(a.do_train = false ∧ a.do_valid = false ∧ a.do_test = false) := by
      simp [ht]
    have hdt : (override_config a cfg).do_train = true := by
      rw [override_config_do_train]; exact ht
    have hsp2 : (override_config a cfg).save_path = none := by
      rw [override_config_save_path_of_train a cfg ht]; exact hsp
    simp [mainPrologue, hck, hmode, hdt, hsp2]

/-- Claim C5 witness: on a configuration with no mode flag set, main aborts
with the mode error and an empty file-system trace. -/
theorem config_errors_before_io_witness :
    (argsNoMode.do_train = false ∧ argsNoMode.do_valid = false ∧ argsNoMode.do_test = false)
    ∧ mainPrologue argsNoMode cfg0 false
        = ([], .error "one of train/val/test mode must be choosed.") :=
  ⟨by decide, (config_errors_before_io argsNoMode cfg0 false).1 (by decide)⟩

/-- Claim C5 counterexample: a train-mode run given a checkpoint directory
but no save destination does hit the fatal save-path error, but only
after reading the checkpoint config.json, so the abort is not free of
file reads as the claim states. -/
theorem config_error_after_read_counterexample :
    mainPrologue argsC5 cfg0 false
      = ([PrologEvent.readFile "ckpt/config.json"],
         .error "Where do you want to save your trained model?")
    ∧ (mainPrologue argsC5 cfg0 false).1 ≠ [] := by
  have h : mainPrologue argsC5 cfg0 false
      = ([PrologEvent.readFile "ckpt/config.json"],
         .error "Where do you want to save your trained model?") := by
    simp [mainPrologue, argsC5, cfg0, override_config]
  refine ⟨h, ?_⟩
  rw [h]
  decide

/-- Claim C6 (amended): when the log file exists the user is prompted, and
the run aborts cleanly (nothing written) exactly when the lower-cased
reply is the single letter n; every other reply, including the word no,
proceeds and overwrites the log file. -/
theorem log_overwrite_confirmation (a : Args) (reply : String) :
    (lowerStr reply = "n" → set_logger a true reply = .exited)
  ∧ (lowerStr reply ≠ "n" → set_logger a true reply = .overwrote (log_file_path a)) := by
  constructor <;> intro h <;> simp [set_logger, h]

/-- Claim C6 witness: the reply N aborts the run. -/
theorem log_overwrite_confirmation_witness :
    lowerStr "N" = "n" ∧ set_logger argsC6 true "N" = .exited :=
  ⟨by decide, (log_overwrite_confirmation argsC6 "N").1 (by decide)⟩

/-- Claim C6 counterexample: the declining reply no does not abort; the run
proceeds and overwrites the log file. -/
theorem log_decline_no_counterexample :
    set_logger argsC6 true "no" = .overwrote "save/train.log"
    ∧ set_logger argsC6 true "no" ≠ .exited := by
  constructor <;> decide

theorem parse_triple_line_ok_length (e2i r2i : String → Option Nat) (l : Line)
    (tr : Triple) (h : parse_triple_line e2i r2i l = .ok tr) : l.length = 3 := by
  rcases l with _ | ⟨x, _ | ⟨y, _ | ⟨z, _ | ⟨w, zs⟩⟩⟩⟩ <;>
    first
      | rfl
      | simp [parse_triple_line] at h

theorem read_triple_ok_lengths (e2i r2i : String → Option Nat) :
    ∀ (ls : List Line) (ts : List Triple), read_triple e2i r2i ls = .ok ts →
      ∀ l ∈ ls, l.length = 3 := by
  intro ls
  induction ls with
  | nil => intro ts h l hl; simp at hl
  | cons l0 rest ih =>
    intro ts h l hl
    cases hp : parse_triple_line e2i r2i l0 with
    | error m => simp [read_triple, hp] at h
    | ok tr =>
      cases hr : read_triple e2i r2i rest with
      | error m => simp [read_triple, hp, hr] at h
      | ok ts2 =>
        rcases List.mem_cons.mp hl with rfl | hl2
        · exact parse_triple_line_ok_length e2i r2i l tr hp
        · exact ih ts2 hr l hl2

theorem load_dict_lines_ok_lengths :
    ∀ (ls : List Line) (d d2 : Vocab), load_dict_lines ls d = .ok d2 →
      ∀ l ∈ ls, l.length = 2 := by
  intro ls
  induction ls with
  | nil => intro d d2 h l hl; simp at hl
  | cons fields rest ih =>
    intro d d2 h l hl
    rcases fields with _ | ⟨eid, _ | ⟨name, _ | ⟨z, zs⟩⟩⟩
    · simp [load_dict_lines] at h
    · simp [load_dict_lines] at h
    · cases hi : int_of_string? eid with
      | none => simp [load_dict_lines, hi] at h
      | some n =>
        rcases List.mem_cons.mp hl with rfl | hl2
        · rfl
        · exact ih (insertVocab d name n) d2 (by simpa [load_dict_lines, hi] using h) l hl2
    · simp [load_dict_lines] at h

/-- Claim C7: a line with the wrong tab-separated field count (3 for triple
files, 2 for dictionary files) makes the whole read fail with an error, so
nothing partial is ever returned to the rest of the run; and on a file
whose every line resolves, read_triple returns exactly the per-line id
triples in file order. -/
theorem malformed_line_aborts (e2i r2i : String → Option Nat) (tl dl : List Line) :
    ((∃ l ∈ tl, l.length ≠ 3) → ∃ msg, read_triple e2i r2i tl = .error msg)
  ∧ ((∃ l ∈ dl, l.length ≠ 2) → ∃ msg, load_dict dl = .error msg)
  ∧ (∀ f : Line → Triple,
      (∀ l ∈ tl, parse_triple_line e2i r2i l = .ok (f l)) →
      read_triple e2i r2i tl = .ok (tl.map f)) := by
  refine ⟨?_, ?_, ?_⟩
  · rintro ⟨l, hl, hlen⟩
    cases h : read_triple e2i r2i tl with
    | error m => exact ⟨m, rfl⟩
    | ok ts => exact absurd (read_triple_ok_lengths e2i r2i tl ts h l hl) hlen
  · rintro ⟨l, hl, hlen⟩
    cases h : load_dict dl with
    | error m => exact ⟨m, rfl⟩
    | ok d => exact absurd (load_dict_lines_ok_lengths dl [] d h l hl) hlen
  · intro f hf
    induction tl with
    | nil => rfl
    | cons l rest ih =>
      have h1 : parse_triple_line e2i r2i l = .ok (f l) := hf l (List.mem_cons_self l rest)
      have h2 := ih (fun l2 hl2 => hf l2 (List.mem_cons_of_mem l hl2))
      simp [read_triple, h1, h2]

/-- Claim C7 witness: a two-field triple line aborts the read, a three-field
dictionary line aborts the dictionary load, and the well-formed file
loads to its id triples in file order. -/
theorem malformed_line_aborts_witness :
    (∃ l ∈ badLines, l.length ≠ 3)
  ∧ (∃ msg, read_triple e2iAB r2iR badLines = .error msg)
  ∧ (∃ msg, load_dict badDictLines = .error msg)
  ∧ read_triple e2iAB r2iR goodLines = .ok [(0, 0, 1), (1, 0, 0)] :=
  ⟨by decide,
   (malformed_line_aborts e2iAB r2iR badLines badDictLines).1 (by decide),
   (malformed_line_aborts e2iAB r2iR badLines badDictLines).2.1 (by decide),
   (malformed_line_aborts e2iAB r2iR goodLines badDictLines).2.2 fGood
     (by intro l hl; fin_cases hl <;> rfl)⟩

theorem mem_fst_insertVocab (d : Vocab) (k : String) (v : Nat) (x : String) :
    x ∈ (insertVocab d k v).map Prod.fst ↔ x ∈ d.map Prod.fst ∨ x = k := by
  induction d with
  | nil => simp [insertVocab]
  | cons p rest ih =>
    obtain ⟨k0, v0⟩ := p
    by_cases h : k0 = k
    · subst h
      simp [insertVocab]
      tauto
    · simp [insertVocab, h, ih]
      tauto

theorem insertVocab_fst_nodup (d : Vocab) (k : String) (v : Nat)
    (hd : (d.map Prod.fst).Nodup) : ((insertVocab d k v).map Prod.fst).Nodup := by
  induction d with
  | nil => simp [insertVocab]
  | cons p rest ih =>
    obtain ⟨k0, v0⟩ := p
    simp only [List.map_cons, List.nodup_cons] at hd
    by_cases h : k0 = k
    · subst h
      simpa [insertVocab] using hd
    · simp only [insertVocab, h, if_false, List.map_cons, List.nodup_cons]
      refine ⟨?_, ih hd.2⟩
      rw [mem_fst_insertVocab]
      rintro (hmem | rfl)
      · exact hd.1 hmem
      · exact h rfl

theorem load_dict_lines_fst_nodup :
    ∀ (ls : List Line) (d d2 : Vocab), (d.map Prod.fst).Nodup →
      load_dict_lines ls d = .ok d2 → (d2.map Prod.fst).Nodup := by
  intro ls
  induction ls with
  | nil =>
    intro d d2 hd h
    simp only [load_dict_lines] at h
    cases h
    exact hd
  | cons fields rest ih =>
    intro d d2 hd h
    rcases fields with _ | ⟨eid, _ | ⟨name, _ | ⟨z, zs⟩⟩⟩
    · simp [load_dict_lines] at h
    · simp [load_dict_lines] at h
    · cases hi : int_of_string? eid with
      | none => simp [load_dict_lines, hi] at h
      | some n =>
        exact ih (insertVocab d name n) d2 (insertVocab_fst_nodup d name n hd)
          (by simpa [load_dict_lines, hi] using h)
    · simp [load_dict_lines] at h

theorem lookupName_mem :
    ∀ (d : Vocab) (t : String) (i : Nat), lookupName d t = some i → (t, i) ∈ d := by
  intro d
  induction d with
  | nil => intro t i h; simp [lookupName] at h
  | cons p rest ih =>
    obtain ⟨k, v⟩ := p
    intro t i h
    by_cases hk : k = t
    · subst hk
      simp only [lookupName, if_pos, Option.some.injEq] at h
      subst h
      exact List.mem_cons_self _ _
    · simp only [lookupName, if_neg hk] at h
      exact List.mem_cons_of_mem _ (ih t i h)

theorem lookupName_of_mem_nodup :
    ∀ (d : Vocab), (d.map Prod.fst).Nodup →
      ∀ (t : String) (i : Nat), (t, i) ∈ d → lookupName d t = some i := by
  intro d
  induction d with
  | nil => intro _ t i h; simp at h
  | cons p rest ih =>
    obtain ⟨k, v⟩ := p
    intro hd t i h
    simp only [List.map_cons, List.nodup_cons] at hd
    rcases List.mem_cons.mp h with heq | hmem
    · cases heq
      simp [lookupName]
    · have hk : ¬(k = t) := by
        rintro rfl
        exact hd.1 (List.mem_map.mpr ⟨(k, i), hmem, rfl⟩)
      simp only [lookupName, if_neg hk]
      exact ih hd.2 t i hmem

theorem id2name_of_mem_nodup :
    ∀ (d : Vocab), (d.map Prod.snd).Nodup →
      ∀ (t : String) (i : Nat), (t, i) ∈ d → id2name d i = some t := by
  intro d
  induction d with
  | nil => intro _ t i h; simp at h
  | cons p rest ih =>
    obtain ⟨k, v⟩ := p
    intro hd t i h
    simp only [List.map_cons, List.nodup_cons] at hd
    rcases List.mem_cons.mp h with heq | hmem
    · cases heq
      simp [id2name]
    · have hv : ¬(v = i) := by
        rintro rfl
        exact hd.1 (List.mem_map.mpr ⟨(t, v), hmem, rfl⟩)
      simp only [id2name, if_neg hv]
      exact ih hd.2 t i hmem

theorem filter_self_length_one {i : Nat} :
    ∀ (l : List Nat), l.Nodup → i ∈ l → (l.filter (fun x => x = i)).length = 1 := by
  intro l
  induction l with
  | nil => simp
  | cons a l ih =>
    intro hn hm
    simp only [List.nodup_cons] at hn
    rcases List.mem_cons.mp hm with rfl | hm2
    · have hfe : l.filter (fun x => x = i) = [] := by
        rw [List.filter_eq_nil_iff]
        intro x hx
        simp only [decide_eq_true_eq]
        rintro rfl
        exact hn.1 hx
      simp [List.filter_cons, hfe]
    · have hne : ¬(a = i) := by
        rintro rfl
        exact hn.1 hm2
      simp only [List.filter_cons, decide_eq_true_eq, if_neg hne]
      exact ih hn.2 hm2

/-- Claim C9 (amended): for a dictionary file whose loaded entries carry ids
forming exactly the range below the dict size, the name-to-id mapping is
a bijection onto that dense range and round-trips in both directions; the
code never validates this shape, so it is a hypothesis, not an invariant
(see the counterexample). -/
theorem vocab_bijection_of_range_ids (ls : List Line) (d : Vocab)
    (hld : load_dict ls = .ok d)
    (hperm : (d.map Prod.snd).Perm (List.range d.length)) :
    dictBij d
  ∧ (∀ i, i < d.length → ∃ t, id2name d i = some t ∧ lookupName d t = some i)
  ∧ (∀ (t : String) (i : Nat), lookupName d t = some i →
      i < d.length ∧ id2name d i = some t) := by
  have hfst : (d.map Prod.fst).Nodup :=
    load_dict_lines_fst_nodup ls [] d (by simp) hld
  have hsnd : (d.map Prod.snd).Nodup := hperm.nodup_iff.mpr (List.nodup_range _)
  have hmem : ∀ i, i ∈ d.map Prod.snd ↔ i < d.length := by
    intro i
    rw [hperm.mem_iff, List.mem_range]
  refine ⟨?_, ?_, ?_⟩
  · intro i hi
    have h1 : ((d.map Prod.snd).filter (fun x => x = i)).length = 1 :=
      filter_self_length_one _ hsnd ((hmem i).mpr hi)
    rw [List.filter_map] at h1
    simpa [Function.comp] using h1
  · intro i hi
    obtain ⟨p, hp, hpi⟩ := List.mem_map.mp ((hmem i).mpr hi)
    obtain ⟨t, j⟩ := p
    cases hpi
    exact ⟨t, id2name_of_mem_nodup d hsnd t j hp, lookupName_of_mem_nodup d hfst t j hp⟩
  · intro t i h
    have hmem2 : (t, i) ∈ d := lookupName_mem d t i h
    have hsmem : i ∈ d.map Prod.snd := List.mem_map.mpr ⟨(t, i), hmem2, rfl⟩
    exact ⟨(hmem i).mp hsmem, id2name_of_mem_nodup d hsnd t i hmem2⟩

/-- Claim C9 witness: the two-line dictionary with ids 0 and 1 loads to a
bijective vocabulary. -/
theorem vocab_bijection_witness :
    (vocabW.map Prod.snd).Perm (List.range vocabW.length) ∧ dictBij vocabW :=
  ⟨by decide, (vocab_bijection_of_range_ids dictLinesW vocabW rfl (by decide)).1⟩

/-- Claim C9 counterexample: a syntactically well-formed dictionary file
whose single entry carries id 1 loads without error, yet the resulting
mapping is not a bijection onto the dense range below its size: id 0 is
assigned to no name at all. -/
theorem vocab_bijection_counterexample :
    load_dict [["1", "a"]] = .ok [("a", 1)]
    ∧ ¬ dictBij [("a", 1)]
    ∧ id2name [("a", 1)] 0 = none :=
  ⟨rfl, by decide, rfl⟩

theorem getW_setW_same : ∀ (t : WTable) (tr : Triple) (v : ℚ),
    getW (setW t tr v) tr = some v := by
  intro t tr v
  induction t with
  | nil => simp [setW, getW]
  | cons p rest ih =>
    obtain ⟨k, w⟩ := p
    by_cases h : k = tr
    · subst h; simp [setW, getW]
    · simp [setW, getW, h, ih]

theorem getW_setW_ne : ∀ (t : WTable) (a tr : Triple) (v : ℚ), tr ≠ a →
    getW (setW t a v) tr = getW t tr := by
  intro t a tr v hne
  have hne2 : ¬(a = tr) := fun h2 => hne h2.symm
  induction t with
  | nil =>
    simp only [setW, getW]
    exact if_neg hne2
  | cons p rest ih =>
    obtain ⟨k, w⟩ := p
    by_cases h : k = a
    · subst h
      simp [setW, getW, hne2]
    · simp only [setW, if_neg h, getW]
      by_cases h2 : k = tr
      · simp [h2]
      · simp [h2, ih]

theorem tables_getD_set_same : ∀ (l : List WTable) (i : Nat) (x : WTable),
    i < l.length → (l.set i x).getD i [] = x := by
  intro l
  induction l with
  | nil => intro i x h; simp at h
  | cons a l ih =>
    intro i x h
    cases i with
    | zero => rfl
    | succ i =>
      simp only [List.set_cons_succ, List.getD_cons_succ]
      exact ih i x (by simpa using h)

theorem tables_getD_append_left : ∀ (l1 l2 : List WTable) (i : Nat),
    i < l1.length → (l1 ++ l2).getD i [] = l1.getD i [] := by
  intro l1
  induction l1 with
  | nil => intro l2 i h; simp at h
  | cons a l1 ih =>
    intro l2 i h
    cases i with
    | zero => rfl
    | succ i =>
      simp only [List.cons_append, List.getD_cons_succ]
      exact ih l2 i (by simpa using h)

theorem writeW_tables_length (h : DataHeap) (d : TrainDatasetView) (tr : Triple)
    (v : ℚ) : (writeW h d tr v).tables.length = h.tables.length := by
  simp [writeW]

theorem readW_writeW_agree (h : DataHeap) (d1 d2 : TrainDatasetView)
    (hlt : d1.wref < h.tables.length) (he : d2.wref = d1.wref) (tr a : Triple)
    (v : ℚ) :
    readW (writeW h d1 a v) d2 tr = if tr = a then some v else readW h d2 tr := by
  unfold readW writeW
  simp only [he]
  rw [tables_getD_set_same _ _ _ hlt]
  by_cases ht : tr = a
  · simp [ht, getW_setW_same]
  · simp [ht, getW_setW_ne _ _ _ _ ht]

theorem foldl_writeW_length (d : TrainDatasetView) :
    ∀ (L : List Triple) (h : DataHeap),
      (L.foldl (fun hh t2 => writeW hh d t2 1) h).tables.length = h.tables.length := by
  intro L
  induction L with
  | nil => intro h; rfl
  | cons a L ih =>
    intro h
    rw [List.foldl_cons, ih, writeW_tables_length]

theorem readW_foldl_writes (d : TrainDatasetView) :
    ∀ (L : List Triple) (h : DataHeap), d.wref < h.tables.length →
      ∀ tr, readW (L.foldl (fun hh t2 => writeW hh d t2 1) h) d tr
        = if tr ∈ L then some 1 else readW h d tr := by
  intro L
  induction L with
  | nil => intro h hlt tr; simp
  | cons a L ih =>
    intro h hlt tr
    have hlt2 : d.wref < (writeW h d a 1).tables.length := by
      rw [writeW_tables_length]; exact hlt
    rw [List.foldl_cons, ih (writeW h d a 1) hlt2 tr,
        readW_writeW_agree h d d hlt rfl tr a 1]
    by_cases h1 : tr ∈ L
    · simp [h1]
    · by_cases h2 : tr = a
      · simp [h1, h2]
      · simp [h1, h2]

theorem readW_append_table (h : DataHeap) (d : TrainDatasetView) (x : WTable)
    (hlt : d.wref < h.tables.length) (tr : Triple) :
    readW { tables := h.tables ++ [x] } d tr = readW h d tr := by
  unfold readW
  rw [tables_getD_append_left _ _ _ hlt]

/-- Claim C2: after the dataset setup of main, every triple of the training
set (injected fakes included, since they are already merged into
train_triples) reads back subsampling weight exactly 1.0, the tail view
and all four clf and gen views hold the same weight-table object as the
head view, and a mutation performed through any view holding that object
is immediately visible through every other such view.  Spec-modelled in
part: the TrainDataset constructor itself is in dataloader.py, outside
src/, and is modelled from the spec as storing the triples and a fresh
table; the aliasing and the 1.0 initialisation are run.py lines 282-341. -/
theorem shared_weight_table_invariant (method : Option String)
    (tt ct : List Triple) (fresh : List Triple → WTable)
    (hm : method = some "clf" ∨ method = none) :
    ((mainDatasetSetup method tt ct fresh).train_tail.wref
        = (mainDatasetSetup method tt ct fresh).train_head.wref)
  ∧ (∀ dv, (mainDatasetSetup method tt ct fresh).clf_head = some dv →
        dv.wref = (mainDatasetSetup method tt ct fresh).train_head.wref)
  ∧ (∀ dv, (mainDatasetSetup method tt ct fresh).clf_tail = some dv →
        dv.wref = (mainDatasetSetup method tt ct fresh).train_head.wref)
  ∧ (∀ dv, (mainDatasetSetup method tt ct fresh).gen_head = some dv →
        dv.wref = (mainDatasetSetup method tt ct fresh).train_head.wref)
  ∧ (∀ dv, (mainDatasetSetup method tt ct fresh).gen_tail = some dv →
        dv.wref = (mainDatasetSetup method tt ct fresh).train_head.wref)
  ∧ (∀ tr ∈ tt, readW (mainDatasetSetup method tt ct fresh).heap
        (mainDatasetSetup method tt ct fresh).train_head tr = some 1)
  ∧ (∀ d1 d2 : TrainDatasetView,
        d1.wref = (mainDatasetSetup method tt ct fresh).train_head.wref →
        d2.wref = (mainDatasetSetup method tt ct fresh).train_head.wref →
        ∀ (tr : Triple) (v : ℚ),
          readW (writeW (mainDatasetSetup method tt ct fresh).heap d1 tr v) d2 tr
            = some v) := by
  simp only [mainDatasetSetup, newTrainDataset]
  rw [if_pos hm]
  refine ⟨rfl, ?_, ?_, ?_, ?_, ?_, ?_⟩
  · rintro dv ⟨rfl⟩; rfl
  · rintro dv ⟨rfl⟩; rfl
  · rintro dv ⟨rfl⟩; rfl
  · rintro dv ⟨rfl⟩; rfl
  · intro tr htr
    dsimp only
    rw [readW_append_table, readW_append_table, readW_append_table, readW_append_table,
        readW_foldl_writes, if_pos htr]
    all_goals
      simp only [foldl_writeW_length]
      simp
  · intro d1 d2 h1 h2 tr v
    dsimp only at h1 h2 ⊢
    rw [readW_writeW_agree, if_pos rfl]
    · rw [h1]
      simp [foldl_writeW_length]
    · rw [h1, h2]

/-- Claim C2 witness: on the one-triple training set in clf mode, the
triple reads back weight 1.0 through the head view. -/
theorem shared_weight_table_invariant_witness :
    ((some "clf" : Option String) = some "clf" ∨ (some "clf" : Option String) = none)
  ∧ readW (mainDatasetSetup (some "clf") [(0, 0, 1)] [] (fun _ => [])).heap
      (mainDatasetSetup (some "clf") [(0, 0, 1)] [] (fun _ => [])).train_head (0, 0, 1)
      = some 1 :=
  ⟨Or.inl rfl,
   (shared_weight_table_invariant (some "clf") [(0, 0, 1)] [] (fun _ => [])
     (Or.inl rfl)).2.2.2.2.2.1 (0, 0, 1) (by simp)⟩

theorem stateAfter_zero (a : Args) (u : Bool → WTable → WTable)
    (m : List ℚ → List ℚ) (s0 : LoopState) : stateAfter a u m s0 0 = s0 := rfl

theorem stateAfter_succ (a : Args) (u : Bool → WTable → WTable)
    (m : List ℚ → List ℚ) (s0 : LoopState) (k : Nat) :
    stateAfter a u m s0 (k + 1) = loopBody a u m k (stateAfter a u m s0 k) := by
  unfold stateAfter
  rw [List.range_succ, List.foldl_append]
  rfl

theorem loopBody_soft (a : Args) (u : Bool → WTable → WTable)
    (m : List ℚ → List ℚ) (k : Nat) (s : LoopState) :
    (loopBody a u m k s).soft
      = if a.method = some "clf" ∧ k % 10001 = 0 then nextSoft a s.soft else s.soft := by
  simp only [loopBody, maybeSave, saveStep, save_model, decayUpd, mainStepUpd, clfDetour]
  repeat' split
  all_goals rfl

theorem warmupPhase_soft (a : Args) (s : LoopState) :
    (warmupPhase a s).soft = s.soft := by
  unfold warmupPhase
  split <;> rfl

theorem initLoopState_soft (a : Args) (ck : Checkpoint) (params0 : List ℚ)
    (w0 : WTable) : (initLoopState a ck params0 w0).soft = false := by
  unfold initLoopState
  split <;> rfl

theorem soft_pinned_one (a : Args) (u : Bool → WTable → WTable)
    (m : List ℚ → List ℚ) (s0 : LoopState) (hm : a.method = some "clf")
    (h1 : a.num = 1) (hs : s0.soft = false) :
    ∀ k, (stateAfter a u m s0 k).soft = decide (1 ≤ k) := by
  intro k
  induction k with
  | zero => simpa [stateAfter_zero]
  | succ k ih =>
    rw [stateAfter_succ, loopBody_soft]
    by_cases hk : k % 10001 = 0
    · simp [hm, hk, nextSoft, h1]
    · have hk0 : k ≠ 0 := by rintro rfl; exact hk rfl
      have hk1 : 1 ≤ k := Nat.one_le_iff_ne_zero.mpr hk0
      simp [hm, hk, ih, hk1, Nat.le_succ_of_le hk1]

theorem soft_pinned_sentinel (a : Args) (u : Bool → WTable → WTable)
    (m : List ℚ → List ℚ) (s0 : LoopState) (hm : a.method = some "clf")
    (h1 : a.num = 1000) (hs : s0.soft = false) :
    ∀ k, (stateAfter a u m s0 k).soft = false := by
  intro k
  induction k with
  | zero => simpa [stateAfter_zero]
  | succ k ih =>
    rw [stateAfter_succ, loopBody_soft]
    by_cases hk : k % 10001 = 0
    · have hne : a.num ≠ 1 := by rw [h1]; decide
      simp [hm, hk, nextSoft, h1, hne]
    · simp [hm, hk, ih]

theorem soft_toggle (a : Args) (u : Bool → WTable → WTable)
    (m : List ℚ → List ℚ) (s0 : LoopState) (hm : a.method = some "clf")
    (hn1 : a.num ≠ 1) (hn2 : a.num ≠ 1000) (hs : s0.soft = false) :
    ∀ k, (stateAfter a u m s0 k).soft
      = decide ((List.range k).countP (fun j => decide (j % 10001 = 0)) % 2 = 1) := by
  intro k
  induction k with
  | zero => simpa [stateAfter_zero]
  | succ k ih =>
    rw [stateAfter_succ, loopBody_soft]
    by_cases hk : k % 10001 = 0
    · simp only [hm, hk, and_self, if_true, if_pos, nextSoft, hn1, hn2, if_false, ih,
        List.range_succ, List.countP_append, List.countP_cons, decide_eq_true_eq,
        List.countP_nil]
      by_cases hc : (List.range k).countP (fun j => decide (j % 10001 = 0)) % 2 = 1
      · have h2 : ((List.range k).countP (fun j => decide (j % 10001 = 0)) + 1) % 2 = 0 := by
          omega
        simp [hk, hc, h2]
      · have h2 : ((List.range k).countP (fun j => decide (j % 10001 = 0)) + 1) % 2 = 1 := by
          omega
        simp [hk, hc, h2]
    · simp [hm, hk, ih, List.range_succ, List.countP_append, List.countP_cons]

/-- Claim C3: in clf mode the soft/hard flag evolves deterministically from
the step counter and the configured repeat count num: it starts hard and
is updated exactly at steps that are multiples of 10001; at those steps
it is pinned soft for num 1, pinned hard for the sentinel 1000, and
flipped otherwise, so after k steps it reflects the parity of the number
of triggering steps seen so far. -/
theorem clf_soft_mode_schedule (a : Args) (u : Bool → WTable → WTable)
    (m : List ℚ → List ℚ) (ck : Checkpoint) (params0 : List ℚ) (w0 : WTable)
    (hm : a.method = some "clf") (k : Nat) (hk : k ≤ a.max_steps) :
    (a.num = 1 →
      (stateAfter a u m (warmupPhase a (initLoopState a ck params0 w0)) k).soft
        = decide (1 ≤ k))
  ∧ (a.num = 1000 →
      (stateAfter a u m (warmupPhase a (initLoopState a ck params0 w0)) k).soft = false)
  ∧ (a.num ≠ 1 → a.num ≠ 1000 →
      (stateAfter a u m (warmupPhase a (initLoopState a ck params0 w0)) k).soft
        = decide ((List.range k).countP (fun j => decide (j % 10001 = 0)) % 2 = 1)) := by
  have hs : (warmupPhase a (initLoopState a ck params0 w0)).soft = false := by
    rw [warmupPhase_soft, initLoopState_soft]
  exact ⟨fun h1 => soft_pinned_one a u m _ hm h1 hs k,
         fun h1 => soft_pinned_sentinel a u m _ hm h1 hs k,
         fun h1 h2 => soft_toggle a u m _ hm h1 h2 hs k⟩

/-- Claim C3 witness: with repeat count 2 the flag has flipped once after
the two steps of the concrete clf run, matching the trigger parity. -/
theorem clf_soft_mode_schedule_witness :
    argsClf.method = some "clf" ∧ 2 ≤ argsClf.max_steps
  ∧ (stateAfter argsClf idClfUpd idParamUpd
      (warmupPhase argsClf (initLoopState argsClf ck0 [] [])) 2).soft
      = decide ((List.range 2).countP (fun j => decide (j % 10001 = 0)) % 2 = 1) :=
  ⟨rfl, by decide,
   (clf_soft_mode_schedule argsClf idClfUpd idParamUpd ck0 [] [] rfl 2
     (by decide)).2.2 (by decide) (by decide)⟩

theorem loopBody_phases (a : Args) (u : Bool → WTable → WTable)
    (m : List ℚ → List ℚ) (k : Nat) (s : LoopState) :
    (loopBody a u m k s).phases = s.phases ++ specStepPhases a k := by
  simp only [loopBody, maybeSave, saveStep, save_model, decayUpd, mainStepUpd,
    clfDetour, specStepPhases]
  repeat' split
  all_goals dsimp only
  all_goals simp only [List.append_assoc, List.nil_append]

theorem stateAfter_phases (a : Args) (u : Bool → WTable → WTable)
    (m : List ℚ → List ℚ) (s0 : LoopState) :
    ∀ k, (stateAfter a u m s0 k).phases
      = s0.phases ++ ((List.range k).map (specStepPhases a)).flatten := by
  intro k
  induction k with
  | zero =>
    simp only [stateAfter_zero, List.range_zero, List.map_nil, List.flatten_nil,
      List.append_nil]
  | succ k ih =>
    rw [stateAfter_succ, loopBody_phases, ih, List.range_succ]
    simp only [List.map_append, List.map_cons, List.map_nil, List.flatten_append,
      List.flatten_cons, List.flatten_nil, List.append_assoc, List.append_nil]

theorem saveStep_phases (a : Args) (k : Nat) (s : LoopState) :
    (saveStep a k s).phases = s.phases := by
  simp only [saveStep, save_model]
  split <;> rfl

theorem warmupPhase_phases (a : Args) (s : LoopState) :
    (warmupPhase a s).phases = s.phases ++ specWarmupPhases a := by
  unfold warmupPhase specWarmupPhases
  split
  · rfl
  · exact (List.append_nil _).symm

theorem initLoopState_phases (a : Args) (ck : Checkpoint) (params0 : List ℚ)
    (w0 : WTable) : (initLoopState a ck params0 w0).phases = [] := by
  unfold initLoopState
  split <;> rfl

theorem warmup_not_mem_specStepPhases (a : Args) (k : Nat) :
    Phase.warmupEpoch ∉ specStepPhases a k := by
  intro hmem
  unfold specStepPhases at hmem
  rcases List.mem_append.mp hmem with h | h
  · split at h
    · rcases List.mem_append.mp h with h2 | h2 <;>
        exact absurd (List.mem_replicate.mp h2).2 (by decide)
    · cases h
  · rw [List.mem_singleton] at h
    exact Phase.noConfusion h

/-- Claim C4: the train-mode scheduling trace is exactly the one the spec
state machine prescribes: a classifier warm-up prefix of 1200 epochs run
if and only if the method is clf and the run resumes from a checkpoint,
followed, for every loop step, by a detour of 200 GAN epochs and 200
classifier-refresh epochs before the main step whenever the step index is
a multiple of the fixed interval 10001 in clf mode, and by the bare main
step otherwise. -/
theorem training_mode_state_machine (a : Args) (u : Bool → WTable → WTable)
    (m : List ℚ → List ℚ) (ck : Checkpoint) (params0 : List ℚ) (w0 : WTable)
    (ht : a.do_train = true) :
    (trainRun a u m ck params0 w0).phases
      = specWarmupPhases a ++ ((List.range a.max_steps).map (specStepPhases a)).flatten
  ∧ (Phase.warmupEpoch ∈ (trainRun a u m ck params0 w0).phases
      ↔ (a.method = some "clf" ∧ a.init_checkpoint.isSome = true)) := by
  have h1 : (trainRun a u m ck params0 w0).phases
      = specWarmupPhases a ++ ((List.range a.max_steps).map (specStepPhases a)).flatten := by
    unfold trainRun
    rw [if_pos ht, saveStep_phases, stateAfter_phases, warmupPhase_phases,
        initLoopState_phases]
    rw [List.nil_append]
  refine ⟨h1, ?_⟩
  rw [h1]
  constructor
  · intro hmem
    rcases List.mem_append.mp hmem with h | h
    · unfold specWarmupPhases at h
      revert h
      split
      · intro _; assumption
      · intro h; cases h
    · exfalso
      rcases List.mem_flatten.mp h with ⟨l, hl, hml⟩
      rcases List.mem_map.mp hl with ⟨j, _, rfl⟩
      exact warmup_not_mem_specStepPhases a j hml
  · intro hc
    apply List.mem_append.mpr
    left
    unfold specWarmupPhases
    rw [if_pos hc]
    exact List.mem_replicate.mpr ⟨by decide, rfl⟩

/-- Claim C4 witness: in the concrete clf run resuming from a checkpoint,
the warm-up phase is present in the trace. -/
theorem training_mode_state_machine_witness :
    argsClf.do_train = true
  ∧ (Phase.warmupEpoch ∈ (trainRun argsClf idClfUpd idParamUpd ck0 [] []).phases
      ↔ (argsClf.method = some "clf" ∧ argsClf.init_checkpoint.isSome = true)) :=
  ⟨rfl, (training_mode_state_machine argsClf idClfUpd idParamUpd ck0 [] [] rfl).2⟩

theorem mkBundle_saveStep (a : Args) (j k : Nat) (s : LoopState) :
    mkBundle a j (saveStep a k s) = mkBundle a j s := by
  simp only [saveStep, save_model, mkBundle]
  split <;> rfl

theorem saveStep_saved (a : Args) (k : Nat) (s : LoopState)
    (hns : a.no_save = false) :
    (saveStep a k s).saved = s.saved ++ [mkBundle a k s] := by
  simp only [saveStep, save_model, hns]
  rfl

theorem warmupPhase_saved (a : Args) (s : LoopState) :
    (warmupPhase a s).saved = s.saved := by
  unfold warmupPhase
  split <;> rfl

theorem initLoopState_saved (a : Args) (ck : Checkpoint) (params0 : List ℚ)
    (w0 : WTable) : (initLoopState a ck params0 w0).saved = [] := by
  unfold initLoopState
  split <;> rfl

theorem loopBody_saved (a : Args) (u : Bool → WTable → WTable)
    (m : List ℚ → List ℚ) (k : Nat) (s : LoopState) (hns : a.no_save = false) :
    (loopBody a u m k s).saved
      = s.saved ++ (if k % a.save_checkpoint_steps = 0
          then [mkBundle a k (loopBody a u m k s)] else []) := by
  simp only [loopBody, maybeSave, saveStep, save_model, decayUpd, mainStepUpd,
    clfDetour, mkBundle, hns]
  repeat' split
  all_goals dsimp only
  all_goals try simp only [List.append_nil]
  all_goals first
    | rfl
    | exact absurd (by assumption : false = true) (by decide)

theorem stateAfter_saved (a : Args) (u : Bool → WTable → WTable)
    (m : List ℚ → List ℚ) (s0 : LoopState) (hns : a.no_save = false) :
    ∀ k, (stateAfter a u m s0 k).saved
      = s0.saved ++ ((List.range k).filter (fun j => j % a.save_checkpoint_steps = 0)).map
          (fun j => mkBundle a j (stateAfter a u m s0 (j + 1))) := by
  intro k
  induction k with
  | zero =>
    simp only [stateAfter_zero, List.range_zero, List.filter_nil, List.map_nil,
      List.append_nil]
  | succ k ih =>
    rw [stateAfter_succ, loopBody_saved a u m k _ hns, ih, List.range_succ,
        List.filter_append, List.map_append, List.append_assoc]
    congr 1
    by_cases hk : k % a.save_checkpoint_steps = 0
    · rw [← stateAfter_succ]
      simp [hk]
    · simp [hk]

/-- Claim C8: in a training run that saves, the sequence of written
checkpoints is exactly one bundle per loop step whose index is a multiple
of the checkpoint cadence plus one final bundle after the loop; each
bundle carries the confidence entry exactly when a method is selected,
and that entry is the shared subsampling-weight table as it stands at the
moment of the save. -/
theorem checkpoint_confidence_and_cadence (a : Args) (u : Bool → WTable → WTable)
    (m : List ℚ → List ℚ) (ck : Checkpoint) (params0 : List ℚ) (w0 : WTable)
    (ht : a.do_train = true) (hns : a.no_save = false)
    (hcad : 0 < a.save_checkpoint_steps) (hms : 0 < a.max_steps) :
    (trainRun a u m ck params0 w0).saved
      = ((List.range a.max_steps).filter (fun j => j % a.save_checkpoint_steps = 0)).map
          (fun j => mkBundle a j
            (stateAfter a u m (warmupPhase a (initLoopState a ck params0 w0)) (j + 1)))
        ++ [mkBundle a (a.max_steps - 1)
             (stateAfter a u m (warmupPhase a (initLoopState a ck params0 w0)) a.max_steps)]
  ∧ (trainRun a u m ck params0 w0).saved.map Checkpoint.step
      = (List.range a.max_steps).filter (fun j => j % a.save_checkpoint_steps = 0)
        ++ [a.max_steps - 1]
  ∧ (∀ c ∈ (trainRun a u m ck params0 w0).saved,
      c.confidence = if a.method.isSome = true
        then some ((stateAfter a u m (warmupPhase a (initLoopState a ck params0 w0))
            (c.step + 1)).weights)
        else none) := by
  have h1 : (trainRun a u m ck params0 w0).saved
      = ((List.range a.max_steps).filter (fun j => j % a.save_checkpoint_steps = 0)).map
          (fun j => mkBundle a j
            (stateAfter a u m (warmupPhase a (initLoopState a ck params0 w0)) (j + 1)))
        ++ [mkBundle a (a.max_steps - 1)
             (stateAfter a u m (warmupPhase a (initLoopState a ck params0 w0)) a.max_steps)] := by
    unfold trainRun
    rw [if_pos ht, saveStep_saved a _ _ hns, stateAfter_saved a u m _ hns,
        warmupPhase_saved, initLoopState_saved, List.nil_append]
  have hsucc : a.max_steps - 1 + 1 = a.max_steps := Nat.succ_pred_eq_of_pos hms
  refine ⟨h1, ?_, ?_⟩
  · rw [h1, List.map_append, List.map_map]
    congr 1
    have hfe : (Checkpoint.step ∘ fun j => mkBundle a j
        (stateAfter a u m (warmupPhase a (initLoopState a ck params0 w0)) (j + 1)))
        = id := funext (fun j => rfl)
    rw [hfe, List.map_id]
  · rw [h1]
    intro c hc
    rcases List.mem_append.mp hc with h | h
    · obtain ⟨j, hj, rfl⟩ := List.mem_map.mp h
      simp [mkBundle]
    · rw [List.mem_singleton] at h
      subst h
      simp only [mkBundle, hsucc]


/-- Claim C8 witness: the three-step run with cadence 1 writes checkpoints
at steps 0, 1 and 2 and once more at run end. -/
theorem checkpoint_confidence_and_cadence_witness :
    argsA.do_train = true ∧ argsA.no_save = false
  ∧ 0 < argsA.save_checkpoint_steps ∧ 0 < argsA.max_steps
  ∧ (trainRun argsA idClfUpd idParamUpd ck0 [0] []).saved.map Checkpoint.step
      = (List.range argsA.max_steps).filter (fun j => j % argsA.save_checkpoint_steps = 0)
        ++ [argsA.max_steps - 1] :=
  ⟨rfl, rfl, by decide, by decide,
   (checkpoint_confidence_and_cadence argsA idClfUpd idParamUpd ck0 [0] [] rfl rfl
     (by decide) (by decide)).2.1⟩

theorem maybeSave_rates (a : Args) (k : Nat) (s : LoopState) :
    (maybeSave a k s).current_learning_rate = s.current_learning_rate
  ∧ (maybeSave a k s).optimizer_lr = s.optimizer_lr
  ∧ (maybeSave a k s).warm_up_steps = s.warm_up_steps := by
  unfold maybeSave saveStep save_model
  repeat' split
  all_goals exact ⟨rfl, rfl, rfl⟩

theorem clfDetour_rates (a : Args) (u : Bool → WTable → WTable) (step : Nat)
    (s : LoopState) :
    (clfDetour a u step s).current_learning_rate = s.current_learning_rate
  ∧ (clfDetour a u step s).optimizer_lr = s.optimizer_lr
  ∧ (clfDetour a u step s).warm_up_steps = s.warm_up_steps := by
  unfold clfDetour
  split <;> exact ⟨rfl, rfl, rfl⟩

theorem loopBody_decay_fire (a : Args) (u : Bool → WTable → WTable)
    (m : List ℚ → List ℚ) (step : Nat) (s : LoopState)
    (hd : s.warm_up_steps ≤ step) :
    (loopBody a u m step s).current_learning_rate = s.current_learning_rate / 10
  ∧ (loopBody a u m step s).optimizer_lr = s.current_learning_rate / 10
  ∧ (loopBody a u m step s).warm_up_steps = s.warm_up_steps * 3 := by
  unfold loopBody
  obtain ⟨m1, m2, m3⟩ := maybeSave_rates a step
    (decayUpd step (mainStepUpd m step (clfDetour a u step s)))
  obtain ⟨c1, c2, c3⟩ := clfDetour_rates a u step s
  have hl : (mainStepUpd m step (clfDetour a u step s)).current_learning_rate
      = s.current_learning_rate := c1
  have hw : (mainStepUpd m step (clfDetour a u step s)).warm_up_steps
      = s.warm_up_steps := c3
  have hcond : (mainStepUpd m step (clfDetour a u step s)).warm_up_steps ≤ step := by
    rw [hw]; exact hd
  refine ⟨m1.trans ?_, m2.trans ?_, m3.trans ?_⟩ <;>
    (unfold decayUpd; rw [if_pos hcond]; dsimp only)
  · rw [hl]
  · rw [hl]
  · rw [hw]

theorem loopBody_decay_skip (a : Args) (u : Bool → WTable → WTable)
    (m : List ℚ → List ℚ) (step : Nat) (s : LoopState)
    (hd : step < s.warm_up_steps) :
    (loopBody a u m step s).current_learning_rate = s.current_learning_rate
  ∧ (loopBody a u m step s).optimizer_lr = s.optimizer_lr
  ∧ (loopBody a u m step s).warm_up_steps = s.warm_up_steps := by
  unfold loopBody
  obtain ⟨m1, m2, m3⟩ := maybeSave_rates a step
    (decayUpd step (mainStepUpd m step (clfDetour a u step s)))
  obtain ⟨c1, c2, c3⟩ := clfDetour_rates a u step s
  have hl : (mainStepUpd m step (clfDetour a u step s)).current_learning_rate
      = s.current_learning_rate := c1
  have ho : (mainStepUpd m step (clfDetour a u step s)).optimizer_lr
      = s.optimizer_lr := c2
  have hw : (mainStepUpd m step (clfDetour a u step s)).warm_up_steps
      = s.warm_up_steps := c3
  have hcond : ¬((mainStepUpd m step (clfDetour a u step s)).warm_up_steps ≤ step) := by
    rw [hw]; exact Nat.not_le.mpr hd
  refine ⟨m1.trans ?_, m2.trans ?_, m3.trans ?_⟩ <;>
    (unfold decayUpd; rw [if_neg hcond])
  · rw [hl]
  · rw [ho]
  · rw [hw]

theorem warmupPhase_rates (a : Args) (s : LoopState) :
    (warmupPhase a s).current_learning_rate = s.current_learning_rate
  ∧ (warmupPhase a s).optimizer_lr = s.optimizer_lr
  ∧ (warmupPhase a s).warm_up_steps = s.warm_up_steps := by
  unfold warmupPhase
  split <;> exact ⟨rfl, rfl, rfl⟩

theorem initLoopState_rates_fresh (a : Args) (ck : Checkpoint) (params0 : List ℚ)
    (w0 : WTable) (hck : a.init_checkpoint = none) :
    (initLoopState a ck params0 w0).current_learning_rate = a.learning_rate
  ∧ (initLoopState a ck params0 w0).optimizer_lr = a.learning_rate
  ∧ (initLoopState a ck params0 w0).warm_up_steps = initWarmUpSteps a := by
  unfold initLoopState
  rw [hck]
  exact ⟨rfl, rfl, rfl⟩

/-- Claim C10: with no warm-up step count configured the decay threshold
defaults to max_steps, so a fresh run never decays: at every step of the
loop the learning rate, the rate the optimizer was built with and the
threshold keep their initial values; and in general, one loop iteration
whose step has reached the threshold divides the learning rate by 10,
rebuilds the optimizer at the new rate and triples the threshold, while
an iteration below the threshold leaves all three untouched. -/
theorem lr_decay_schedule (a : Args) (u : Bool → WTable → WTable)
    (m : List ℚ → List ℚ) (ck : Checkpoint) (params0 : List ℚ) (w0 : WTable)
    (hwu : a.warm_up_steps = none) (hck : a.init_checkpoint = none) :
    initWarmUpSteps a = a.max_steps
  ∧ (∀ k, k ≤ a.max_steps →
      (stateAfter a u m (warmupPhase a (initLoopState a ck params0 w0)) k).current_learning_rate
          = a.learning_rate
      ∧ (stateAfter a u m (warmupPhase a (initLoopState a ck params0 w0)) k).optimizer_lr
          = a.learning_rate
      ∧ (stateAfter a u m (warmupPhase a (initLoopState a ck params0 w0)) k).warm_up_steps
          = a.max_steps)
  ∧ (∀ (step : Nat) (s : LoopState), s.warm_up_steps ≤ step →
      (loopBody a u m step s).current_learning_rate = s.current_learning_rate / 10
      ∧ (loopBody a u m step s).optimizer_lr = s.current_learning_rate / 10
      ∧ (loopBody a u m step s).warm_up_steps = s.warm_up_steps * 3)
  ∧ (∀ (step : Nat) (s : LoopState), step < s.warm_up_steps →
      (loopBody a u m step s).current_learning_rate = s.current_learning_rate
      ∧ (loopBody a u m step s).optimizer_lr = s.optimizer_lr
      ∧ (loopBody a u m step s).warm_up_steps = s.warm_up_steps) := by
  have hwm : initWarmUpSteps a = a.max_steps := by
    unfold initWarmUpSteps
    rw [hwu]
  refine ⟨hwm, ?_, fun step s hd => loopBody_decay_fire a u m step s hd,
          fun step s hd => loopBody_decay_skip a u m step s hd⟩
  have h0 := initLoopState_rates_fresh a ck params0 w0 hck
  have hwp := warmupPhase_rates a (initLoopState a ck params0 w0)
  intro k
  induction k with
  | zero =>
    intro _
    rw [stateAfter_zero]
    exact ⟨hwp.1.trans h0.1, hwp.2.1.trans h0.2.1, (hwp.2.2.trans h0.2.2).trans hwm⟩
  | succ k ih =>
    intro hk
    have hk2 : k ≤ a.max_steps := Nat.le_of_succ_le hk
    have ihk := ih hk2
    have hlt : k < (stateAfter a u m (warmupPhase a
        (initLoopState a ck params0 w0)) k).warm_up_steps := by
      rw [ihk.2.2]
      exact Nat.lt_of_succ_le hk
    have hskip := loopBody_decay_skip a u m k _ hlt
    rw [stateAfter_succ]
    exact ⟨hskip.1.trans ihk.1, hskip.2.1.trans ihk.2.1, hskip.2.2.trans ihk.2.2⟩

/-- Claim C10 witness: the fresh three-step run keeps its learning rate and
threshold for the whole loop. -/
theorem lr_decay_schedule_witness :
    argsA.warm_up_steps = none ∧ argsA.init_checkpoint = none
  ∧ initWarmUpSteps argsA = argsA.max_steps
  ∧ (stateAfter argsA idClfUpd idParamUpd
      (warmupPhase argsA (initLoopState argsA ck0 [0] [])) 3).current_learning_rate
      = argsA.learning_rate :=
  ⟨rfl, rfl,
   (lr_decay_schedule argsA idClfUpd idParamUpd ck0 [0] [] rfl rfl).1,
   ((lr_decay_schedule argsA idClfUpd idParamUpd ck0 [0] [] rfl rfl).2.1 3 (by decide)).1⟩

/-- Claim C1 (amended): restoring from a checkpoint reproduces exactly the
model parameter values that were saved in the bundle and, in train mode,
the saved warm-up counter; the step counter, however, is not restored:
init_step is 0 in every branch, so the restarted run recounts its steps
from zero rather than from the saved step value. -/
theorem checkpoint_roundtrip_amended (a : Args) (ht : a.do_train = true) :
    (∀ (j : Nat) (s : LoopState),
      restoreFromCheckpoint a (mkBundle a j s) (initWarmUpSteps a)
        = (s.model_params, 0, s.warm_up_steps)
      ∧ (mkBundle a j s).step = j)
  ∧ (∀ (c : Checkpoint) (q : List ℚ) (w : WTable), a.init_checkpoint.isSome = true →
      (initLoopState a c q w).model_params = c.model_state_dict
      ∧ (initLoopState a c q w).warm_up_steps = c.warm_up_steps
      ∧ initStepOf a c = 0) := by
  constructor
  · intro j s
    constructor
    · simp [restoreFromCheckpoint, mkBundle, ht]
    · rfl
  · intro c q w hck
    unfold initLoopState initStepOf restoreFromCheckpoint
    rw [hck]
    simp [ht]

/-- Claim C1 witness: saving a concrete state at step 2 and restoring it
reproduces its parameters and warm-up counter, with init_step 0. -/
theorem checkpoint_roundtrip_amended_witness :
    argsA2.do_train = true
  ∧ restoreFromCheckpoint argsA2 (mkBundle argsA2 2 sW) (initWarmUpSteps argsA2)
      = (sW.model_params, 0, sW.warm_up_steps) :=
  ⟨rfl, ((checkpoint_roundtrip_amended argsA2 rfl).1 2 sW).1⟩

/-- Claim C1 counterexample: the concrete three-step run writes checkpoints
whose step fields are 0, 1, 2 and 2, yet restoring the one saved with
step 2 restarts the step counter at 0, not at the saved value. -/
theorem checkpoint_step_counter_counterexample :
    runA.saved.map Checkpoint.step = [0, 1, 2, 2]
  ∧ ∃ c ∈ runA.saved, c.step = 2
      ∧ (restoreFromCheckpoint argsA2 c (initWarmUpSteps argsA2)).2.1 = 0
      ∧ (restoreFromCheckpoint argsA2 c (initWarmUpSteps argsA2)).2.1 ≠ c.step := by
  constructor <;> decide

end NIKE
